import Mathlib

/-!
Verification of the grid-animation generators (Tetris / Pong / WELCOME
banner).  Each Python simulator is embedded shallowly: boards and grids are
lists of lists, machine state is an explicit record, and every use of the
global random number generator is surfaced as an explicit stream parameter.
-/

set_option autoImplicit false

namespace Tetris

def GAME_COLS : Nat := 10
def GAME_ROWS : Nat := 16

inductive PieceType
  | I | O | T | S | Z | J | L
deriving DecidableEq

open PieceType in
/-- Rotation states of each piece, as lists of (row, column) offsets,
exactly as in the `PIECES` dictionary of the source. -/
def PIECES : PieceType → List (List (Int × Int))
  | I => [[(0, 0), (0, 1), (0, 2), (0, 3)],
          [(0, 0), (1, 0), (2, 0), (3, 0)]]
  | O => [[(0, 0), (0, 1), (1, 0), (1, 1)]]
  | T => [[(0, 1), (1, 0), (1, 1), (1, 2)],
          [(0, 0), (1, 0), (1, 1), (2, 0)],
          [(0, 0), (0, 1), (0, 2), (1, 1)],
          [(0, 1), (1, 0), (1, 1), (2, 1)]]
  | S => [[(0, 1), (0, 2), (1, 0), (1, 1)],
          [(0, 0), (1, 0), (1, 1), (2, 1)]]
  | Z => [[(0, 0), (0, 1), (1, 1), (1, 2)],
          [(0, 1), (1, 0), (1, 1), (2, 0)]]
  | J => [[(0, 0), (1, 0), (1, 1), (1, 2)],
          [(0, 0), (0, 1), (1, 0), (2, 0)],
          [(0, 0), (0, 1), (0, 2), (1, 2)],
          [(0, 1), (1, 1), (2, 0), (2, 1)]]
  | L => [[(0, 2), (1, 0), (1, 1), (1, 2)],
          [(0, 0), (1, 0), (2, 0), (2, 1)],
          [(0, 0), (0, 1), (0, 2), (1, 0)],
          [(0, 0), (0, 1), (1, 1), (2, 1)]]

abbrev Row := List (Option PieceType)

abbrev Board := List Row

/-- One captured animation frame (the dictionary built by `capture_frame`). -/
structure Frame where
  board : Board
  piece_type : Option PieceType
  piece : Option (List (Int × Int))
  piece_row : Int
  piece_col : Int
  score : Nat
deriving DecidableEq

/-- Default frame used only as the fallback value of `List.getD`. -/
def dFrame : Frame :=
  { board := [], piece_type := none, piece := none,
    piece_row := 0, piece_col := 0, score := 0 }

/-- The whole mutable state of a `TetrisGame` object. -/
structure Game where
  board : Board
  current_type : Option PieceType
  current_piece : Option (List (Int × Int))
  current_rotation : Nat
  current_row : Int
  current_col : Int
  frames : List Frame
  lines_cleared : Nat
  score : Nat
deriving DecidableEq

def emptyRow : Row := List.replicate GAME_COLS none

def emptyBoard : Board := List.replicate GAME_ROWS emptyRow

def initGame : Game :=
  { board := emptyBoard, current_type := none, current_piece := none,
    current_rotation := 0, current_row := 0, current_col := 0,
    frames := [], lines_cleared := 0, score := 0 }

/-- Embedding of `self.board[r][c]`, with out-of-range access giving `none` (reachable
states only index in range, exactly as in the Python). -/
def cellAt (b : Board) (r c : Nat) : Option PieceType :=
  (b.getD r []).getD c none

/-- Embedding of `TetrisGame.is_valid_position` on an explicit board and piece. -/
def is_valid_position (b : Board) (row col : Int) (piece : List (Int × Int)) : Bool :=
  piece.all fun rc =>
    let r := row + rc.1
    let c := col + rc.2
    decide (0 ≤ r) && decide (r < (GAME_ROWS : Int)) &&
    decide (0 ≤ c) && decide (c < (GAME_COLS : Int)) &&
    (cellAt b r.toNat c.toNat).isNone

/-- Embedding of `TetrisGame.spawn_piece` with the `random.choice` result passed in.
The current-piece fields are mutated first and the validity of the spawn
position is reported, mirroring the Python method's return value. -/
def spawn_piece (g : Game) (t : PieceType) : Bool × Game :=
  let g' := { g with current_type := some t, current_rotation := 0,
                     current_piece := some ((PIECES t).getD 0 []),
                     current_row := 0,
                     current_col := (GAME_COLS : Int) / 2 - 2 }
  (is_valid_position g'.board g'.current_row g'.current_col ((PIECES t).getD 0 []), g')

/-- The wall-kick loop of `try_rotate`: try each horizontal offset in order,
adopting the first valid one. -/
def rotateKick (g : Game) (newRot : Nat) (newPiece : List (Int × Int)) :
    List Int → Bool × Game
  | [] => (false, g)
  | o :: rest =>
    if is_valid_position g.board g.current_row (g.current_col + o) newPiece then
      (true, { g with current_rotation := newRot, current_piece := some newPiece,
                      current_col := g.current_col + o })
    else rotateKick g newRot newPiece rest

/-- Embedding of `TetrisGame.try_rotate`. -/
def try_rotate (g : Game) : Bool × Game :=
  if g.current_type = some PieceType.O then (false, g)
  else
    match g.current_type with
    | none => (false, g)
    | some t =>
      let rotations := PIECES t
      let new_rotation := (g.current_rotation + 1) % rotations.length
      let new_piece := rotations.getD new_rotation []
      rotateKick g new_rotation new_piece [0, -1, 1, -2, 2]

/-- Embedding of `TetrisGame.try_move`. -/
def try_move (g : Game) (dRow dCol : Int) : Bool × Game :=
  let new_row := g.current_row + dRow
  let new_col := g.current_col + dCol
  if is_valid_position g.board new_row new_col (g.current_piece.getD []) then
    (true, { g with current_row := new_row, current_col := new_col })
  else (false, g)

def setCell (b : Board) (r c : Nat) (v : Option PieceType) : Board :=
  b.set r ((b.getD r []).set c v)

/-- Embedding of `TetrisGame.lock_piece`: write every offset cell of the current piece
into the board (the Python checks only the row bound). -/
def lock_piece (g : Game) : Game :=
  { g with board :=
      (g.current_piece.getD []).foldl (fun b rc =>
        let r := g.current_row + rc.1
        let c := g.current_col + rc.2
        if 0 ≤ r ∧ r < (GAME_ROWS : Int) then setCell b r.toNat c.toNat g.current_type
        else b) g.board }

/-- Is a board row fully occupied (`all(self.board[r][c] is not None ...)`)? -/
def fullRow (row : Row) : Bool :=
  (List.range GAME_COLS).all fun c => (row.getD c none).isSome

/-- The ascending list of indices of full rows (`lines_to_clear`). -/
def linesToClear (b : Board) : List Nat :=
  (List.range GAME_ROWS).filter fun r => fullRow (b.getD r [])

/-- One iteration of the clearing loop: `del self.board[r]` followed by
`self.board.insert(0, [None]*GAME_COLS)`. -/
def clearStep (b : Board) (r : Nat) : Board :=
  emptyRow :: b.eraseIdx r

/-- Embedding of `TetrisGame.clear_lines`: returns the number of cleared lines together
with the updated game. -/
def clear_lines (g : Game) : Nat × Game :=
  let ls := linesToClear g.board
  let b' := ls.foldl clearStep g.board
  (ls.length,
   { g with board := b',
            score := if ls = [] then g.score else g.score + ls.length * 100 })

/-- The frame recorded by `capture_frame`. -/
def mkFrame (g : Game) : Frame :=
  { board := g.board, piece_type := g.current_type, piece := g.current_piece,
    piece_row := g.current_row, piece_col := g.current_col, score := g.score }

/-- Embedding of `TetrisGame.capture_frame`. -/
def capture_frame (g : Game) : Game :=
  { g with frames := g.frames ++ [mkFrame g] }

/-- The optional lateral-move / rotate phase at the top of the tick loop,
driven by one `random.random()` draw. -/
def actionPhase (g : Game) (a : ℚ) : Game :=
  if a < mkRat 2 10 then (try_move g 0 (-1)).2
  else if a < mkRat 4 10 then (try_move g 0 1).2
  else if a < mkRat 5 10 then (try_rotate g).2
  else g

/-- Locking and clearing at the bottom of the tick loop: `lock_piece`,
`clear_lines`, add to `lines_cleared`, drop the active piece. -/
def lockClear (g : Game) : Game :=
  let g1 := lock_piece g
  let p := clear_lines g1
  { p.2 with lines_cleared := p.2.lines_cleared + p.1, current_piece := none }

/-- One iteration of the `while True` body of `simulate_game`; the returned
Bool is true when the loop continues (the downward move succeeded). -/
def tick (g : Game) (a : ℚ) : Game × Bool :=
  let g1 := actionPhase g a
  let g2 := capture_frame g1
  let mv := try_move g2 1 0
  if mv.1 then (mv.2, true)
  else (capture_frame (lockClear mv.2), false)

/-- The falling loop, with fuel (the piece moves one row down on every
continuing iteration, so `GAME_ROWS + 1` fuel is never exhausted in the
simulation).  Returns the state and the next action-stream index. -/
def tickLoop (acts : Nat → ℚ) : Nat → Game → Nat → Game × Nat
  | 0, g, ai => (g, ai)
  | fuel + 1, g, ai =>
    let t := tick g (acts ai)
    if t.2 then tickLoop acts fuel t.1 (ai + 1) else (t.1, ai + 1)

/-- Lines 141-144 of `simulate_game`: spawn, and on failure wipe the board,
zero the score and spawn again (the second result is ignored). -/
def spawnWithReset (g : Game) (ps : Nat → PieceType) (pi : Nat) : Game × Nat :=
  let s := spawn_piece g (ps pi)
  if s.1 then (s.2, pi + 1)
  else
    let gr := { s.2 with board := emptyBoard, score := 0 }
    ((spawn_piece gr (ps (pi + 1))).2, pi + 2)

/-- Processing of one piece inside `simulate_game`: spawn (with reset on
failure), capture a frame, then run the falling loop. -/
def pieceStep (g : Game) (ps : Nat → PieceType) (acts : Nat → ℚ)
    (pi ai : Nat) : Game × Nat × Nat :=
  let sp := spawnWithReset g ps pi
  let gc := capture_frame sp.1
  let tl := tickLoop acts (GAME_ROWS + 1) gc ai
  (tl.1, sp.2, tl.2)

/-- Embedding of `TetrisGame.simulate_game`, with the piece-choice and action streams of
the random number generator passed explicitly. -/
def simulate_game (g : Game) (numPieces : Nat) (ps : Nat → PieceType)
    (acts : Nat → ℚ) : Game :=
  let start : Game × Nat × Nat := ({ g with frames := [] }, 0, 0)
  ((List.range numPieces).foldl
    (fun acc _ => pieceStep acc.1 ps acts acc.2.1 acc.2.2) start).1

end Tetris

/-! ### Small list lemmas used by the line-clear proof -/

theorem getD_drop_add {α : Type} (l : List α) (m k : Nat) (d : α) :
    (l.drop m).getD k d = l.getD (m + k) d := by
  induction l generalizing m with
  | nil => simp [List.getD]
  | cons a t ih =>
    cases m with
    | zero => simp
    | succ m =>
      simp only [List.drop_succ_cons, Nat.succ_add, List.getD_cons_succ]
      exact ih m

theorem getD_take_lt {α : Type} (l : List α) (m k : Nat) (d : α) (h : k < m) :
    (l.take m).getD k d = l.getD k d := by
  induction l generalizing m k with
  | nil => simp
  | cons a t ih =>
    cases m with
    | zero => omega
    | succ m =>
      cases k with
      | zero => simp
      | succ k => simpa using ih m k (by omega)

theorem eraseIdx_getD_lt {α : Type} (l : List α) (i k : Nat) (d : α) (h : k < i) :
    (l.eraseIdx i).getD k d = l.getD k d := by
  induction l generalizing i k with
  | nil => simp
  | cons a t ih =>
    cases i with
    | zero => omega
    | succ i =>
      cases k with
      | zero => simp [List.eraseIdx]
      | succ k => simpa [List.eraseIdx] using ih i k (by omega)

theorem eraseIdx_getD_ge {α : Type} (l : List α) (i k : Nat) (d : α)
    (hik : i ≤ k) (hi : i < l.length) :
    (l.eraseIdx i).getD k d = l.getD (k + 1) d := by
  induction l generalizing i k with
  | nil => simp at hi
  | cons a t ih =>
    cases i with
    | zero =>
      cases k with
      | zero => simp [List.eraseIdx]
      | succ k => simp [List.eraseIdx]
    | succ i =>
      cases k with
      | zero => omega
      | succ k =>
        simp only [List.length_cons] at hi
        simpa [List.eraseIdx] using ih i k (by omega) (by omega)

theorem length_eraseIdx_lt {α : Type} (l : List α) (i : Nat) (h : i < l.length) :
    (l.eraseIdx i).length = l.length - 1 := by
  induction l generalizing i with
  | nil => simp at h
  | cons a t ih =>
    cases i with
    | zero => simp [List.eraseIdx]
    | succ i =>
      simp only [List.length_cons] at h
      simp [List.eraseIdx, ih i (by omega)]
      omega

theorem filter_eraseIdx_of_not {α : Type} (p : α → Bool) (l : List α) (i : Nat) (d : α)
    (hi : i < l.length) (hp : p (l.getD i d) = false) :
    (l.eraseIdx i).filter p = l.filter p := by
  induction l generalizing i with
  | nil => simp at hi
  | cons a t ih =>
    cases i with
    | zero =>
      simp only [List.getD_cons_zero] at hp
      simp [List.eraseIdx, List.filter_cons, hp]
    | succ i =>
      simp only [List.length_cons] at hi
      simp only [List.getD_cons_succ] at hp
      simp only [List.eraseIdx, List.filter_cons]
      rw [ih i (by omega) hp]

namespace Tetris

theorem fullRow_emptyRow : fullRow emptyRow = false := by decide

theorem fullRow_nil : fullRow [] = false := by decide

/-- A full row index is always in range (out-of-range access yields `[]`,
which is not full since `GAME_COLS > 0`). -/
theorem full_index_lt (b : Board) (i : Nat) (h : fullRow (b.getD i []) = true) :
    i < b.length := by
  by_contra hc
  rw [List.getD_eq_default _ _ (by omega)] at h
  rw [fullRow_nil] at h
  exact Bool.false_ne_true h

/-- Characterization of the clearing loop: running `clearStep` over the
ascending list of exactly the full-row indices replaces each full row by an
empty row inserted at the top, keeping the non-full rows in order. -/
theorem clearLoop_characterization :
    ∀ (idxs : List Nat) (b : Board),
      idxs.Pairwise (· < ·) →
      (∀ i ∈ idxs, fullRow (b.getD i []) = true) →
      (∀ i, i < b.length → fullRow (b.getD i []) = true → i ∈ idxs) →
      idxs.foldl clearStep b =
        List.replicate idxs.length emptyRow ++ b.filter (fun r => !fullRow r) := by
  intro idxs
  induction idxs with
  | nil =>
    intro b _ _ hcomp
    have : b.filter (fun r => !fullRow r) = b := by
      rw [List.filter_eq_self]
      intro a ha
      obtain ⟨i, hi, rfl⟩ := List.mem_iff_getElem.mp ha
      have hfull : fullRow (b.getD i []) = false := by
        by_contra hf
        exact absurd (hcomp i hi (by simpa using hf)) (List.not_mem_nil i)
      rw [List.getD_eq_getElem _ _ hi] at hfull
      simp [hfull]
    simp [this]
  | cons i rest ih =>
    intro b hpw hfull hcomp
    have hmem_i : i ∈ i :: rest := List.mem_cons_self i rest
    have hi_lt : i < b.length := full_index_lt b i (hfull i hmem_i)
    have hb_pos : 1 ≤ b.length := by omega
    have hrest_gt : ∀ j ∈ rest, i < j := (List.pairwise_cons.mp hpw).1
    have hpw' : rest.Pairwise (· < ·) := (List.pairwise_cons.mp hpw).2
    set b' : Board := emptyRow :: b.eraseIdx i with hb'
    have hlen' : b'.length = b.length := by
      rw [hb']
      simp [length_eraseIdx_lt b i hi_lt]
      omega
    have hgetD_high : ∀ j, i < j → b'.getD j [] = b.getD j [] := by
      intro j hij
      rw [hb']
      match j, hij with
      | j + 1, _ =>
        rw [List.getD_cons_succ]
        rcases Nat.lt_or_ge j b.length with hj | hj
        · rcases Nat.lt_or_ge j i with h1 | h2
          · omega
          · rw [eraseIdx_getD_ge b i j [] h2 hi_lt]
        · rw [List.getD_eq_default, List.getD_eq_default]
          · omega
          · rw [length_eraseIdx_lt b i hi_lt]; omega
    have hfull' : ∀ j ∈ rest, fullRow (b'.getD j []) = true := by
      intro j hj
      rw [hgetD_high j (hrest_gt j hj)]
      exact hfull j (List.mem_cons_of_mem i hj)
    have hcomp' : ∀ j, j < b'.length → fullRow (b'.getD j []) = true → j ∈ rest := by
      intro j hjlen hjfull
      match j with
      | 0 =>
        rw [hb', List.getD_cons_zero, fullRow_emptyRow] at hjfull
        exact absurd hjfull Bool.false_ne_true
      | j + 1 =>
        rcases Nat.lt_or_ge j i with h1 | h2
        · -- the rows strictly above index i were not full in b
          rw [hb', List.getD_cons_succ, eraseIdx_getD_lt b i j [] h1] at hjfull
          have := hcomp j (by omega) hjfull
          rcases List.mem_cons.mp this with rfl | hmem
          · omega
          · exact absurd (hrest_gt j hmem) (by omega)
        · rw [hgetD_high (j + 1) (by omega)] at hjfull
          have hjb : j + 1 < b.length := by omega
          have := hcomp (j + 1) hjb hjfull
          rcases List.mem_cons.mp this with h | hmem
          · omega
          · exact hmem
    have hstep : (i :: rest).foldl clearStep b = rest.foldl clearStep b' := by
      rw [List.foldl_cons]; rfl
    rw [hstep, ih b' hpw' hfull' hcomp']
    have hfilter : b'.filter (fun r => !fullRow r) =
        emptyRow :: b.filter (fun r => !fullRow r) := by
      rw [hb']
      rw [List.filter_cons]
      simp only [fullRow_emptyRow, Bool.not_false, if_true]
      rw [filter_eraseIdx_of_not (fun r => !fullRow r) b i [] hi_lt
        (by simp only [Bool.not_eq_false']; exact hfull i hmem_i)]
    rw [hfilter]
    simp only [List.length_cons]
    rw [List.replicate_succ']
    simp [List.append_assoc]

/-- The clearing loop preserves the board's row count when every index is in
range. -/
theorem clearLoop_length :
    ∀ (idxs : List Nat) (b : Board), (∀ i ∈ idxs, i < b.length) →
      (idxs.foldl clearStep b).length = b.length := by
  intro idxs
  induction idxs with
  | nil => intro b _; rfl
  | cons i rest ih =>
    intro b hlt
    have hi : i < b.length := hlt i (List.mem_cons_self i rest)
    have hstep : (clearStep b i).length = b.length := by
      simp only [clearStep, List.length_cons, length_eraseIdx_lt b i hi]
      omega
    have hrest : ∀ j ∈ rest, j < (clearStep b i).length := by
      intro j hj
      rw [hstep]
      exact hlt j (List.mem_cons_of_mem i hj)
    rw [List.foldl_cons, ih (clearStep b i) hrest, hstep]

theorem linesToClear_pairwise (b : Board) : (linesToClear b).Pairwise (· < ·) :=
  (List.pairwise_lt_range GAME_ROWS).filter _

theorem linesToClear_full (b : Board) :
    ∀ i ∈ linesToClear b, fullRow (b.getD i []) = true := by
  intro i hi
  exact (List.mem_filter.mp hi).2

theorem linesToClear_complete (b : Board) (hlen : b.length = GAME_ROWS) :
    ∀ i, i < b.length → fullRow (b.getD i []) = true → i ∈ linesToClear b := by
  intro i hilen hfull
  exact List.mem_filter.mpr ⟨List.mem_range.mpr (by omega), hfull⟩

/-- C1: after one call to `clear_lines` the resulting board has no fully
occupied row, its row count is unchanged, and it consists of one inserted
empty row at the top per removed full row, followed by the surviving
(non-full) rows in order. -/
theorem clear_lines_spec (g : Game) (hlen : g.board.length = GAME_ROWS) :
    (clear_lines g).2.board =
      List.replicate (linesToClear g.board).length emptyRow ++
        g.board.filter (fun r => !fullRow r) ∧
    (clear_lines g).2.board.length = g.board.length ∧
    ∀ row ∈ (clear_lines g).2.board, fullRow row = false := by
  have hboard : (clear_lines g).2.board = (linesToClear g.board).foldl clearStep g.board := rfl
  have hchar := clearLoop_characterization (linesToClear g.board) g.board
    (linesToClear_pairwise g.board) (linesToClear_full g.board)
    (linesToClear_complete g.board hlen)
  refine ⟨by rw [hboard, hchar], ?_, ?_⟩
  · rw [hboard, clearLoop_length (linesToClear g.board) g.board]
    intro i hi
    exact full_index_lt g.board i (linesToClear_full g.board i hi)
  · intro row hrow
    rw [hboard, hchar] at hrow
    rcases List.mem_append.mp hrow with h | h
    · rw [List.eq_of_mem_replicate h]
      exact fullRow_emptyRow
    · have := (List.mem_filter.mp h).2
      simpa using this

/-- Witness for C1 at a concrete board with one full row. -/
theorem clear_lines_spec_witness :
    (let gW : Game := { initGame with
        board := List.replicate (GAME_ROWS - 1) emptyRow ++
          [List.replicate GAME_COLS (some PieceType.I)] }
     gW.board.length = GAME_ROWS ∧
     ((clear_lines gW).2.board =
        List.replicate (linesToClear gW.board).length emptyRow ++
          gW.board.filter (fun r => !fullRow r) ∧
      (clear_lines gW).2.board.length = gW.board.length ∧
      ∀ row ∈ (clear_lines gW).2.board, fullRow row = false)) :=
  ⟨by decide, clear_lines_spec _ (by decide)⟩

/-- The wall-kick loop equals "first valid offset wins" over the offset
list, leaving the state untouched when no offset is valid. -/
theorem rotateKick_eq_find (g : Game) (nr : Nat) (np : List (Int × Int)) :
    ∀ offs : List Int,
      rotateKick g nr np offs =
        match offs.find? (fun o =>
            is_valid_position g.board g.current_row (g.current_col + o) np) with
        | some o => (true, { g with current_rotation := nr, current_piece := some np,
                                    current_col := g.current_col + o })
        | none => (false, g) := by
  intro offs
  induction offs with
  | nil => rfl
  | cons o rest ih =>
    by_cases h : is_valid_position g.board g.current_row (g.current_col + o) np = true
    · simp [rotateKick, List.find?_cons, h]
    · rw [Bool.not_eq_true] at h
      simp only [rotateKick, List.find?_cons, h]
      simpa [h] using ih

/-- C2: for an active piece with more than one rotation state, `try_rotate`
advances to the next rotation state of the fixed cycle and adopts the first
valid offset among 0, -1, +1, -2, +2 (keeping the row); if none is valid the
rotation is rejected and the whole state (rotation, row, column) is kept. -/
theorem try_rotate_spec (g : Game) (t : PieceType) (ht : g.current_type = some t)
    (hlen : 1 < (PIECES t).length) :
    try_rotate g =
      (match [0, -1, 1, -2, 2].find? (fun o =>
          is_valid_position g.board g.current_row (g.current_col + o)
            ((PIECES t).getD ((g.current_rotation + 1) % (PIECES t).length) [])) with
       | some o =>
         (true, { g with
            current_rotation := (g.current_rotation + 1) % (PIECES t).length,
            current_piece :=
              some ((PIECES t).getD ((g.current_rotation + 1) % (PIECES t).length) []),
            current_col := g.current_col + o })
       | none => (false, g)) := by
  have hO : t ≠ PieceType.O := by
    intro h
    subst h
    simp [PIECES] at hlen
  obtain ⟨bd, ct, cp, cr, crow, ccol, fr, lc, sc⟩ := g
  dsimp only at ht
  subst ht
  rw [try_rotate, if_neg (by simpa using hO)]
  exact rotateKick_eq_find _ _ _ _

/-- Witness for C2 at a concrete game state holding a T piece. -/
theorem try_rotate_spec_witness :
    (let gT : Game := { initGame with
        current_type := some PieceType.T,
        current_piece := some ((PIECES PieceType.T).getD 0 []),
        current_row := 0, current_col := 3 }
     gT.current_type = some PieceType.T ∧ 1 < (PIECES PieceType.T).length ∧
     try_rotate gT =
       (match [0, -1, 1, -2, 2].find? (fun o =>
           is_valid_position gT.board gT.current_row (gT.current_col + o)
             ((PIECES PieceType.T).getD
               ((gT.current_rotation + 1) % (PIECES PieceType.T).length) [])) with
        | some o =>
          (true, { gT with
             current_rotation := (gT.current_rotation + 1) % (PIECES PieceType.T).length,
             current_piece :=
               some ((PIECES PieceType.T).getD
                 ((gT.current_rotation + 1) % (PIECES PieceType.T).length) []),
             current_col := gT.current_col + o })
        | none => (false, gT))) :=
  ⟨rfl, by decide, try_rotate_spec _ PieceType.T rfl (by decide)⟩

/-- C10: rotation is a no-op returning `False` for the square piece; yet the
"next" rotation state of `O` is its single state itself, so whenever the
current placement is valid the rotated piece would also be valid in place. -/
theorem try_rotate_O (g : Game) (ht : g.current_type = some PieceType.O) :
    try_rotate g = (false, g) ∧
    (PIECES PieceType.O).length = 1 ∧
    (PIECES PieceType.O).getD ((g.current_rotation + 1) % (PIECES PieceType.O).length) [] =
      (PIECES PieceType.O).getD 0 [] ∧
    (is_valid_position g.board g.current_row g.current_col
        ((PIECES PieceType.O).getD 0 []) = true →
      is_valid_position g.board g.current_row (g.current_col + 0)
        ((PIECES PieceType.O).getD
          ((g.current_rotation + 1) % (PIECES PieceType.O).length) []) = true) := by
  have h1 : (PIECES PieceType.O).length = 1 := rfl
  refine ⟨?_, rfl, ?_, ?_⟩
  · rw [try_rotate, if_pos ht]
  · rw [h1, Nat.mod_one]
  · intro h
    rw [h1, Nat.mod_one, Int.add_zero]
    exact h

/-- A game whose board is completely occupied, with nonzero progress
counters: spawning any piece fails here. -/
def gFull : Game :=
  { initGame with
    board := List.replicate GAME_ROWS (List.replicate GAME_COLS (some PieceType.I)),
    lines_cleared := 5, score := 7, frames := [dFrame] }

/-- C3 counterexample: on a failed spawn the recovery path does NOT reset
all simulation state — the cumulative lines-cleared counter survives. -/
theorem spawn_reset_cex :
    (spawn_piece gFull PieceType.O).1 = false ∧
    (spawnWithReset gFull (fun _ => PieceType.O) 0).1.lines_cleared = 5 ∧
    ¬ (spawnWithReset gFull (fun _ => PieceType.O) 0).1.lines_cleared = 0 := by
  refine ⟨by decide, by decide, by decide⟩

/-- Spawning on the empty board always succeeds (every piece's first
rotation state fits at the top-center spawn position). -/
theorem spawn_on_empty (g : Game) (t : PieceType) (hb : g.board = emptyBoard) :
    (spawn_piece g t).1 = true := by
  have : (spawn_piece g t).1 =
      is_valid_position g.board 0 ((GAME_COLS : Int) / 2 - 2) ((PIECES t).getD 0 []) := rfl
  rw [this, hb]
  cases t <;> decide

/-- C3 (amended): when spawning fails, `simulate_game` silently wipes the
board and zeroes the score, retries the spawn once (which succeeds on the
wiped board), and keeps the cumulative lines-cleared counter and the frames
captured so far; the condition is not surfaced to the caller. -/
theorem spawnWithReset_on_failure (g : Game) (ps : Nat → PieceType) (pi : Nat)
    (hfail : (spawn_piece g (ps pi)).1 = false) :
    (spawnWithReset g ps pi).1.board = emptyBoard ∧
    (spawnWithReset g ps pi).1.score = 0 ∧
    (spawnWithReset g ps pi).1.lines_cleared = g.lines_cleared ∧
    (spawnWithReset g ps pi).1.frames = g.frames ∧
    (spawnWithReset g ps pi).1.current_type = some (ps (pi + 1)) ∧
    (spawnWithReset g ps pi).1.current_rotation = 0 ∧
    (spawnWithReset g ps pi).1.current_row = 0 ∧
    (spawnWithReset g ps pi).1.current_col = (GAME_COLS : Int) / 2 - 2 ∧
    (spawn_piece { (spawn_piece g (ps pi)).2 with board := emptyBoard, score := 0 }
      (ps (pi + 1))).1 = true ∧
    (spawnWithReset g ps pi).2 = pi + 2 := by
  have hres : spawnWithReset g ps pi =
      ((spawn_piece { (spawn_piece g (ps pi)).2 with board := emptyBoard, score := 0 }
        (ps (pi + 1))).2, pi + 2) := by
    rw [spawnWithReset]
    rw [if_neg (by rw [hfail]; exact Bool.false_ne_true)]
  rw [hres]
  refine ⟨rfl, rfl, rfl, rfl, rfl, rfl, rfl, rfl, ?_, rfl⟩
  exact spawn_on_empty _ _ rfl

/-- Witness for C3's amended theorem at the fully occupied board. -/
theorem spawnWithReset_on_failure_witness :
    (spawnWithReset gFull (fun _ => PieceType.O) 0).1.board = emptyBoard ∧
    (spawnWithReset gFull (fun _ => PieceType.O) 0).1.score = 0 ∧
    (spawnWithReset gFull (fun _ => PieceType.O) 0).1.lines_cleared = gFull.lines_cleared ∧
    (spawnWithReset gFull (fun _ => PieceType.O) 0).1.frames = gFull.frames ∧
    (spawnWithReset gFull (fun _ => PieceType.O) 0).1.current_type = some PieceType.O ∧
    (spawnWithReset gFull (fun _ => PieceType.O) 0).1.current_rotation = 0 ∧
    (spawnWithReset gFull (fun _ => PieceType.O) 0).1.current_row = 0 ∧
    (spawnWithReset gFull (fun _ => PieceType.O) 0).1.current_col = (GAME_COLS : Int) / 2 - 2 ∧
    (spawn_piece { (spawn_piece gFull PieceType.O).2 with board := emptyBoard, score := 0 }
      PieceType.O).1 = true ∧
    (spawnWithReset gFull (fun _ => PieceType.O) 0).2 = 0 + 2 :=
  spawnWithReset_on_failure gFull (fun _ => PieceType.O) 0 (by decide)

/-- Case analysis: `try_move` either succeeds, translating the piece, or
fails leaving the state untouched. -/
theorem try_move_cases (g : Game) (dr dc : Int) :
    (try_move g dr dc =
        (true, { g with current_row := g.current_row + dr,
                        current_col := g.current_col + dc }) ∧
      is_valid_position g.board (g.current_row + dr) (g.current_col + dc)
        (g.current_piece.getD []) = true) ∨
    (try_move g dr dc = (false, g) ∧
      is_valid_position g.board (g.current_row + dr) (g.current_col + dc)
        (g.current_piece.getD []) = false) := by
  rw [try_move]
  by_cases h : is_valid_position g.board (g.current_row + dr) (g.current_col + dc)
      (g.current_piece.getD []) = true
  · left
    exact ⟨by rw [if_pos h], h⟩
  · right
    rw [Bool.not_eq_true] at h
    exact ⟨by rw [if_neg (by rw [h]; exact Bool.false_ne_true)], h⟩

theorem try_move_frames (g : Game) (dr dc : Int) :
    (try_move g dr dc).2.frames = g.frames := by
  rcases try_move_cases g dr dc with ⟨h, _⟩ | ⟨h, _⟩ <;> rw [h]

theorem rotateKick_frames (g : Game) (nr : Nat) (np : List (Int × Int)) :
    ∀ offs, (rotateKick g nr np offs).2.frames = g.frames
  | [] => rfl
  | o :: rest => by
    rw [rotateKick]
    split
    · rfl
    · exact rotateKick_frames g nr np rest

theorem try_rotate_frames (g : Game) : (try_rotate g).2.frames = g.frames := by
  rw [try_rotate]
  split
  · rfl
  · cases hct : g.current_type with
    | none => rfl
    | some t => exact rotateKick_frames g _ _ _

/-- The optional move/rotate phase captures no frame. -/
theorem actionPhase_frames (g : Game) (a : ℚ) : (actionPhase g a).frames = g.frames := by
  rw [actionPhase]
  split
  · exact try_move_frames g 0 (-1)
  · split
    · exact try_move_frames g 0 1
    · split
      · exact try_rotate_frames g
      · rfl

theorem lockClear_frames (g : Game) : (lockClear g).frames = g.frames := rfl

theorem lockClear_piece_none (g : Game) : (lockClear g).current_piece = none := rfl

/-- Locking and clearing commute with updates of the frame list: the
captured fields of the locked state do not depend on the frames. -/
theorem mkFrame_lockClear_capture (g : Game) :
    mkFrame (lockClear (capture_frame g)) = mkFrame (lockClear g) := rfl

/-- When the downward move succeeds the tick appends exactly the frame of
the state after the optional action phase — captured BEFORE the fall — and
then moves the piece one row down. -/
theorem tick_succeeds (g : Game) (a : ℚ) (h : (tick g a).2 = true) :
    (tick g a).1.frames = g.frames ++ [mkFrame (actionPhase g a)] ∧
    (tick g a).1.current_row = (actionPhase g a).current_row + 1 := by
  have htick : tick g a =
      (let g2 := capture_frame (actionPhase g a)
       let mv := try_move g2 1 0
       if mv.1 then (mv.2, true) else (capture_frame (lockClear mv.2), false)) := rfl
  rcases try_move_cases (capture_frame (actionPhase g a)) 1 0 with ⟨hm, _⟩ | ⟨hm, _⟩
  · rw [htick]
    simp only [hm, if_true, if_false]
    refine ⟨?_, rfl⟩
    have hcf : (capture_frame (actionPhase g a)).frames =
        (actionPhase g a).frames ++ [mkFrame (actionPhase g a)] := rfl
    rw [hcf, actionPhase_frames]
  · rw [htick] at h
    simp [hm] at h

/-- When the downward move fails the tick appends the pre-fall frame and
then one more frame of the locked-and-cleared state with no active piece. -/
theorem tick_fails (g : Game) (a : ℚ) (h : (tick g a).2 = false) :
    (tick g a).1.frames = g.frames ++
      [mkFrame (actionPhase g a), mkFrame (lockClear (actionPhase g a))] ∧
    (mkFrame (lockClear (actionPhase g a))).piece = none := by
  have htick : tick g a =
      (let g2 := capture_frame (actionPhase g a)
       let mv := try_move g2 1 0
       if mv.1 then (mv.2, true) else (capture_frame (lockClear mv.2), false)) := rfl
  rcases try_move_cases (capture_frame (actionPhase g a)) 1 0 with ⟨hm, _⟩ | ⟨hm, _⟩
  · rw [htick] at h
    simp [hm] at h
  · rw [htick]
    simp only [hm]
    rw [if_neg (by exact fun hf => Bool.false_ne_true hf)]
    refine ⟨?_, rfl⟩
    have h1 : (capture_frame (lockClear (capture_frame (actionPhase g a)))).frames =
        (lockClear (capture_frame (actionPhase g a))).frames ++
          [mkFrame (lockClear (capture_frame (actionPhase g a)))] := rfl
    rw [h1, lockClear_frames, mkFrame_lockClear_capture]
    have h2 : (capture_frame (actionPhase g a)).frames =
        (actionPhase g a).frames ++ [mkFrame (actionPhase g a)] := rfl
    rw [h2, actionPhase_frames, List.append_assoc]
    rfl

theorem tick_frames_extend (g : Game) (a : ℚ) :
    ∃ l, (tick g a).1.frames = g.frames ++ l := by
  cases htk : (tick g a).2 with
  | true => exact ⟨_, (tick_succeeds g a htk).1⟩
  | false => exact ⟨_, (tick_fails g a htk).1⟩

theorem tickLoop_frames_extend (acts : Nat → ℚ) :
    ∀ (fuel : Nat) (g : Game) (ai : Nat),
      ∃ l, (tickLoop acts fuel g ai).1.frames = g.frames ++ l := by
  intro fuel
  induction fuel with
  | zero =>
    intro g ai
    exact ⟨[], by simp [tickLoop]⟩
  | succ fuel ih =>
    intro g ai
    rw [tickLoop]
    split
    · obtain ⟨l2, h2⟩ := ih (tick g (acts ai)).1 (ai + 1)
      obtain ⟨l1, h1⟩ := tick_frames_extend g (acts ai)
      exact ⟨l1 ++ l2, by rw [h2, h1, List.append_assoc]⟩
    · obtain ⟨l1, h1⟩ := tick_frames_extend g (acts ai)
      exact ⟨l1, h1⟩

theorem spawnWithReset_frames (g : Game) (ps : Nat → PieceType) (pi : Nat) :
    (spawnWithReset g ps pi).1.frames = g.frames := by
  rw [spawnWithReset]
  split <;> rfl

theorem getD_append_at_length {α : Type} (l₁ l₂ : List α) (x : α) (d : α) :
    (l₁ ++ x :: l₂).getD l₁.length d = x := by
  rw [List.getD_append_right _ _ _ _ (Nat.le_refl _), Nat.sub_self]
  rfl

/-- C4 (amended): a frame is captured (a) immediately after each (possibly
retried) spawn, (b) on every tick after the optional move/rotate phase but
BEFORE the downward move — so the tick's frame shows the piece's position
prior to that tick's fall — and (c) once more after lock and line clear
with no active piece. -/
theorem frame_capture_points (g : Game) (ps : Nat → PieceType) (acts : Nat → ℚ)
    (pi ai : Nat) (a : ℚ) :
    (pieceStep g ps acts pi ai).1.frames.getD g.frames.length dFrame =
      mkFrame (spawnWithReset g ps pi).1 ∧
    ((tick g a).2 = true →
      (tick g a).1.frames = g.frames ++ [mkFrame (actionPhase g a)] ∧
      (tick g a).1.current_row = (actionPhase g a).current_row + 1) ∧
    ((tick g a).2 = false →
      (tick g a).1.frames = g.frames ++
        [mkFrame (actionPhase g a), mkFrame (lockClear (actionPhase g a))] ∧
      (mkFrame (lockClear (actionPhase g a))).piece = none) := by
  refine ⟨?_, tick_succeeds g a, tick_fails g a⟩
  have hps : (pieceStep g ps acts pi ai).1 =
      (tickLoop acts (GAME_ROWS + 1) (capture_frame (spawnWithReset g ps pi).1) ai).1 := rfl
  obtain ⟨l, hl⟩ := tickLoop_frames_extend acts (GAME_ROWS + 1)
    (capture_frame (spawnWithReset g ps pi).1) ai
  rw [hps, hl]
  have hc : (capture_frame (spawnWithReset g ps pi).1).frames =
      g.frames ++ [mkFrame (spawnWithReset g ps pi).1] := by
    have : (capture_frame (spawnWithReset g ps pi).1).frames =
        (spawnWithReset g ps pi).1.frames ++ [mkFrame (spawnWithReset g ps pi).1] := rfl
    rw [this, spawnWithReset_frames]
  rw [hc, List.append_assoc]
  exact getD_append_at_length _ _ _ _

/-- Witness for C4's amended theorem at a concrete state and action draw. -/
theorem frame_capture_points_witness :
    (pieceStep initGame (fun _ => PieceType.O) (fun _ => (1 : ℚ)) 0 0).1.frames.getD
        initGame.frames.length dFrame =
      mkFrame (spawnWithReset initGame (fun _ => PieceType.O) 0).1 ∧
    ((tick initGame (1 : ℚ)).2 = true →
      (tick initGame (1 : ℚ)).1.frames =
        initGame.frames ++ [mkFrame (actionPhase initGame (1 : ℚ))] ∧
      (tick initGame (1 : ℚ)).1.current_row =
        (actionPhase initGame (1 : ℚ)).current_row + 1) ∧
    ((tick initGame (1 : ℚ)).2 = false →
      (tick initGame (1 : ℚ)).1.frames = initGame.frames ++
        [mkFrame (actionPhase initGame (1 : ℚ)),
         mkFrame (lockClear (actionPhase initGame (1 : ℚ)))] ∧
      (mkFrame (lockClear (actionPhase initGame (1 : ℚ)))).piece = none) :=
  frame_capture_points initGame (fun _ => PieceType.O) (fun _ => (1 : ℚ)) 0 0 (1 : ℚ)

/-- C4 counterexample: the claim that a tick's captured frame reflects the
piece's position AFTER that tick's downward move is false — on the first
tick of an O piece on the empty board the tick moves the piece to row 1 but
the frame captured for that tick still shows row 0. -/
theorem tick_frame_cex :
    (let g0 := (spawn_piece { initGame with frames := [] } PieceType.O).2
     let g1 := capture_frame g0
     let t := tick g1 (1 : ℚ)
     t.2 = true ∧ t.1.current_row = 1 ∧
     (t.1.frames.getD 1 dFrame).piece_row = 0 ∧
     ¬ (t.1.frames.getD 1 dFrame).piece_row = t.1.current_row) := by
  refine ⟨by decide, by decide, by decide, by decide⟩

/-- C6: on the unobstructed board an O piece spawned at top-center with no
rotation or lateral actions (every action draw is 1, skipping all three
action branches) makes exactly `GAME_ROWS - 2` successful downward moves
(it ends locked with its origin on row `GAME_ROWS - 2`, having started on
row 0, and the last pre-fall frame shows that row), after which the
downward move fails and the piece is locked into rows
`GAME_ROWS - 2` and `GAME_ROWS - 1`. -/
theorem O_piece_fall :
    (let res := simulate_game initGame 1 (fun _ => PieceType.O) (fun _ => (1 : ℚ))
     res.frames.length = (GAME_ROWS - 2) + 3 ∧
     (res.frames.getD 0 dFrame).piece_row = 0 ∧
     (res.frames.getD (GAME_ROWS - 1) dFrame).piece_row = ((GAME_ROWS : Int) - 2) ∧
     res.current_row = ((GAME_ROWS : Int) - 2) ∧
     res.current_piece = none ∧
     res.lines_cleared = 0 ∧
     cellAt res.board (GAME_ROWS - 2) 3 = some PieceType.O ∧
     cellAt res.board (GAME_ROWS - 2) 4 = some PieceType.O ∧
     cellAt res.board (GAME_ROWS - 1) 3 = some PieceType.O ∧
     cellAt res.board (GAME_ROWS - 1) 4 = some PieceType.O ∧
     (∀ r, r < GAME_ROWS - 2 → ∀ c, c < GAME_COLS → cellAt res.board r c = none)) := by
  refine ⟨by decide, by decide, by decide, by decide, by decide, by decide,
    by decide, by decide, by decide, by decide, by decide⟩

/-- Witness for C10 at a concrete game state holding the O piece. -/
theorem try_rotate_O_witness :
    (let gO : Game := { initGame with
        current_type := some PieceType.O,
        current_piece := some ((PIECES PieceType.O).getD 0 []),
        current_row := 0, current_col := 3 }
     try_rotate gO = (false, gO) ∧
     (PIECES PieceType.O).length = 1 ∧
     (PIECES PieceType.O).getD ((gO.current_rotation + 1) % (PIECES PieceType.O).length) [] =
       (PIECES PieceType.O).getD 0 [] ∧
     (is_valid_position gO.board gO.current_row gO.current_col
         ((PIECES PieceType.O).getD 0 []) = true →
       is_valid_position gO.board gO.current_row (gO.current_col + 0)
         ((PIECES PieceType.O).getD
           ((gO.current_rotation + 1) % (PIECES PieceType.O).length) []) = true)) :=
  try_rotate_O _ rfl

end Tetris

namespace Pong

def GRID_COLS : Nat := 53
def GRID_ROWS : Nat := 7
def PADDLE_HEIGHT : Int := 3
def LEFT_PADDLE_COL : Nat := 1
def RIGHT_PADDLE_COL : Nat := 51
def CENTER_COL : Nat := 26

def CONTRIB_COLORS : List String :=
  ["#0e4429", "#006d32", "#26a641", "#39d353"]

def EMPTY_COLOR : String := "#161b22"

/-- The mutable state of a `PongGame` object. -/
structure PGame where
  ball_x : Int
  ball_y : Int
  ball_vx : Int
  ball_vy : Int
  left_paddle_y : Int
  right_paddle_y : Int
  left_score : Nat
  right_score : Nat
  will_miss_left : Bool
  will_miss_right : Bool
  miss_direction_left : Int
  miss_direction_right : Int
deriving DecidableEq

/-- The bundle of random draws available to one `reset_ball` call (and, for
the four miss fields, to `__init__`): velocity signs, miss decisions and
miss directions. -/
structure ResetDraws where
  vx : Int
  vy : Int
  wml : Bool
  wmr : Bool
  mdl : Int
  mdr : Int
deriving DecidableEq

/-- Embedding of `PongGame.__init__` with its random draws made explicit. -/
def initPGame (d : ResetDraws) : PGame :=
  { ball_x := (GRID_COLS : Int) / 2, ball_y := (GRID_ROWS : Int) / 2,
    ball_vx := 1, ball_vy := 1,
    left_paddle_y := ((GRID_ROWS : Int) - PADDLE_HEIGHT) / 2,
    right_paddle_y := ((GRID_ROWS : Int) - PADDLE_HEIGHT) / 2,
    left_score := 0, right_score := 0,
    will_miss_left := d.wml, will_miss_right := d.wmr,
    miss_direction_left := d.mdl, miss_direction_right := d.mdr }

/-- Embedding of `PongGame._clamp_paddle`. -/
def clamp_paddle (y : Int) : Int :=
  max 0 (min ((GRID_ROWS : Int) - PADDLE_HEIGHT) y)

/-- Embedding of `PongGame.reset_ball` with its random draws made explicit. -/
def reset_ball (g : PGame) (d : ResetDraws) : PGame :=
  { g with ball_x := (GRID_COLS : Int) / 2, ball_y := (GRID_ROWS : Int) / 2,
           ball_vx := d.vx, ball_vy := d.vy,
           left_paddle_y := ((GRID_ROWS : Int) - PADDLE_HEIGHT) / 2,
           right_paddle_y := ((GRID_ROWS : Int) - PADDLE_HEIGHT) / 2,
           will_miss_left := d.wml, will_miss_right := d.wmr,
           miss_direction_left := d.mdl, miss_direction_right := d.mdr }

/-- The paddle-tracking phase at the top of `PongGame.update` (left paddle,
then right paddle, then both clamps). -/
def paddlePhase (g : PGame) : PGame :=
  let g1 :=
    if g.ball_x < (GRID_COLS : Int) / 2 then
      let target := g.ball_y - PADDLE_HEIGHT / 2
      if g.will_miss_left ∧ g.ball_vx < 0 ∧ g.ball_x < (GRID_COLS : Int) * 2 / 5 then
        { g with left_paddle_y := g.left_paddle_y + g.miss_direction_left }
      else if g.left_paddle_y < target then
        { g with left_paddle_y := g.left_paddle_y + 1 }
      else if g.left_paddle_y > target then
        { g with left_paddle_y := g.left_paddle_y - 1 }
      else g
    else g
  let g2 :=
    if g1.ball_x ≥ (GRID_COLS : Int) / 2 then
      let target := g1.ball_y - PADDLE_HEIGHT / 2
      if g1.will_miss_right ∧ g1.ball_vx > 0 ∧ g1.ball_x > (GRID_COLS : Int) * 3 / 5 then
        { g1 with right_paddle_y := g1.right_paddle_y + g1.miss_direction_right }
      else if g1.right_paddle_y < target then
        { g1 with right_paddle_y := g1.right_paddle_y + 1 }
      else if g1.right_paddle_y > target then
        { g1 with right_paddle_y := g1.right_paddle_y - 1 }
      else g1
    else g1
  { g2 with left_paddle_y := clamp_paddle g2.left_paddle_y,
            right_paddle_y := clamp_paddle g2.right_paddle_y }

/-- Commit the computed next ball position at the end of `update`. -/
def commit (g : PGame) (nx ny : Int) : PGame :=
  { g with ball_x := nx, ball_y := ny }

/-- The right-paddle check and the final position assignment of `update`
(the membership test over `range(paddle_y, paddle_y + PADDLE_HEIGHT)` is the
interval test). -/
def rightPhase (g : PGame) (d : ResetDraws) (nx ny : Int) : PGame :=
  if nx ≥ (RIGHT_PADDLE_COL : Int) - 1 ∧ g.ball_vx > 0 then
    if g.right_paddle_y ≤ ny ∧ ny < g.right_paddle_y + PADDLE_HEIGHT then
      commit { g with ball_vx := -g.ball_vx } ((RIGHT_PADDLE_COL : Int) - 2) ny
    else if nx ≥ (GRID_COLS : Int) then
      reset_ball { g with left_score := g.left_score + 1 } d
    else commit g nx ny
  else commit g nx ny

/-- Embedding of `PongGame.update`: paddle tracking, wall bounce (clamp the next row and
invert the row velocity), then the left- and right-paddle checks with
scoring resets. -/
def update (g0 : PGame) (d : ResetDraws) : PGame :=
  let g := paddlePhase g0
  let next_x := g.ball_x + g.ball_vx
  let ny0 := g.ball_y + g.ball_vy
  let next_y := if ny0 < 0 then 0
                else if ny0 ≥ (GRID_ROWS : Int) then (GRID_ROWS : Int) - 1
                else ny0
  let g1 := if ny0 < 0 ∨ ny0 ≥ (GRID_ROWS : Int) then { g with ball_vy := -g.ball_vy } else g
  if next_x ≤ (LEFT_PADDLE_COL : Int) + 1 ∧ g1.ball_vx < 0 then
    if g1.left_paddle_y ≤ next_y ∧ next_y < g1.left_paddle_y + PADDLE_HEIGHT then
      rightPhase { g1 with ball_vx := -g1.ball_vx } d ((LEFT_PADDLE_COL : Int) + 2) next_y
    else if next_x < 0 then
      reset_ball { g1 with right_score := g1.right_score + 1 } d
    else rightPhase g1 d next_x next_y
  else rightPhase g1 d next_x next_y

def setG (grid : List (List String)) (r c : Nat) (v : String) : List (List String) :=
  grid.set r ((grid.getD r []).set c v)

/-- Embedding of `PongGame.get_frame`. -/
def get_frame (g : PGame) : List (List String) :=
  let grid := List.replicate GRID_ROWS (List.replicate GRID_COLS EMPTY_COLOR)
  let grid := (List.range GRID_ROWS).foldl (fun gr row =>
    if row % 2 = 0 then setG gr row CENTER_COL (CONTRIB_COLORS.getD 0 "") else gr) grid
  let grid := (List.range 3).foldl (fun gr k =>
    let row := g.left_paddle_y + (k : Int)
    if 0 ≤ row ∧ row < (GRID_ROWS : Int) then
      setG gr row.toNat LEFT_PADDLE_COL (CONTRIB_COLORS.getD 2 "")
    else gr) grid
  let grid := (List.range 3).foldl (fun gr k =>
    let row := g.right_paddle_y + (k : Int)
    if 0 ≤ row ∧ row < (GRID_ROWS : Int) then
      setG gr row.toNat RIGHT_PADDLE_COL (CONTRIB_COLORS.getD 2 "")
    else gr) grid
  if 0 ≤ g.ball_y ∧ g.ball_y < (GRID_ROWS : Int) ∧ 0 ≤ g.ball_x ∧ g.ball_x < (GRID_COLS : Int) then
    setG grid g.ball_y.toNat g.ball_x.toNat (CONTRIB_COLORS.getD 3 "")
  else grid

/-- Embedding of `PongGame.get_score`. -/
def get_score (g : PGame) : String :=
  toString g.left_score ++ " - " ++ toString g.right_score

/-- Embedding of `simulate_pong_game` with the init and per-update reset draws made
explicit; returns the frame list and the score-string list. -/
def simulate_pong_game (numUpdates framesPerUpdate : Nat) (d0 : ResetDraws)
    (ds : Nat → ResetDraws) : List (List (List String)) × List String :=
  let res := (List.range numUpdates).foldl
    (fun (acc : PGame × List (List (List String)) × List String) i =>
      let frame := get_frame acc.1
      let score := get_score acc.1
      (update acc.1 (ds i),
       acc.2.1 ++ List.replicate framesPerUpdate frame,
       acc.2.2 ++ List.replicate framesPerUpdate score))
    (initPGame d0, [], [])
  (res.2.1, res.2.2)

/-- The paddle-tracking phase moves only the paddles: the ball's position,
velocity and the scores are untouched. -/
theorem paddlePhase_ball (g : PGame) :
    (paddlePhase g).ball_x = g.ball_x ∧ (paddlePhase g).ball_y = g.ball_y ∧
    (paddlePhase g).ball_vx = g.ball_vx ∧ (paddlePhase g).ball_vy = g.ball_vy := by
  simp only [paddlePhase]
  split_ifs <;> exact ⟨rfl, rfl, rfl, rfl⟩

set_option maxHeartbeats 3000000 in
/-- After every update the ball's row lies within `[0, GRID_ROWS)`,
whichever path (wall clamp, paddle hit, score reset) was taken. -/
theorem update_row_in_range (g : PGame) (d : ResetDraws) :
    0 ≤ (update g d).ball_y ∧ (update g d).ball_y < (GRID_ROWS : Int) := by
  obtain ⟨hx, hy, hvx, hvy⟩ := paddlePhase_ball g
  simp only [update, rightPhase, commit, reset_ball, hx, hy, hvx, hvy]
  simp only [GRID_ROWS, GRID_COLS, PADDLE_HEIGHT, LEFT_PADDLE_COL, RIGHT_PADDLE_COL]
  split_ifs <;> constructor <;> dsimp only <;> omega

/-- On a tick where the ball is away from both paddle columns, a candidate
row outside `[0, GRID_ROWS)` is clamped to the boundary row and the vertical
velocity is inverted (exactly once), while the horizontal motion is
unaffected. -/
theorem update_wall_only (g : PGame) (d : ResetDraws)
    (hL : ¬(g.ball_x + g.ball_vx ≤ (LEFT_PADDLE_COL : Int) + 1 ∧ g.ball_vx < 0))
    (hR : ¬(g.ball_x + g.ball_vx ≥ (RIGHT_PADDLE_COL : Int) - 1 ∧ g.ball_vx > 0))
    (hout : g.ball_y + g.ball_vy < 0 ∨ g.ball_y + g.ball_vy ≥ (GRID_ROWS : Int)) :
    (update g d).ball_vy = -g.ball_vy ∧
    (update g d).ball_vx = g.ball_vx ∧
    (update g d).ball_x = g.ball_x + g.ball_vx ∧
    (update g d).ball_y =
      (if g.ball_y + g.ball_vy < 0 then 0 else (GRID_ROWS : Int) - 1) := by
  obtain ⟨hx, hy, hvx, hvy⟩ := paddlePhase_ball g
  simp only [update, rightPhase, commit, reset_ball, hx, hy, hvx, hvy]
  simp only [GRID_ROWS, GRID_COLS, PADDLE_HEIGHT, LEFT_PADDLE_COL,
    RIGHT_PADDLE_COL] at hL hR hout ⊢
  split_ifs <;>
    refine ⟨?_, ?_, ?_, ?_⟩ <;> dsimp only <;> omega

/-- C5 (amended): the candidate next row, when outside `[0, rows)`, is
clamped to the boundary row with the vertical velocity inverted exactly
once; after every update the ball's row is within `[0, rows)`; and on a
bounce tick that involves no paddle contact and no score, a ball with
velocity `(+1, +1)` whose candidate row would exceed row 6 leaves the tick
with velocity `(+1, -1)` on row 6.  (On a tick where the bounce coincides
with a paddle hit or a score, the horizontal velocity is additionally
reflected, resp. the ball and velocity are re-randomized by the reset.) -/
theorem update_wall_bounce (g : PGame) (d : ResetDraws) :
    (0 ≤ (update g d).ball_y ∧ (update g d).ball_y < (GRID_ROWS : Int)) ∧
    ((¬(g.ball_x + g.ball_vx ≤ (LEFT_PADDLE_COL : Int) + 1 ∧ g.ball_vx < 0)) →
     (¬(g.ball_x + g.ball_vx ≥ (RIGHT_PADDLE_COL : Int) - 1 ∧ g.ball_vx > 0)) →
     (g.ball_y + g.ball_vy < 0 ∨ g.ball_y + g.ball_vy ≥ (GRID_ROWS : Int)) →
     (update g d).ball_vy = -g.ball_vy ∧ (update g d).ball_vx = g.ball_vx ∧
     (update g d).ball_x = g.ball_x + g.ball_vx ∧
     (update g d).ball_y =
       (if g.ball_y + g.ball_vy < 0 then 0 else (GRID_ROWS : Int) - 1)) ∧
    (g.ball_vx = 1 → g.ball_vy = 1 → g.ball_y + 1 ≥ (GRID_ROWS : Int) →
     g.ball_x + 1 < (RIGHT_PADDLE_COL : Int) - 1 →
     (update g d).ball_vx = 1 ∧ (update g d).ball_vy = -1 ∧
     (update g d).ball_y = (GRID_ROWS : Int) - 1 ∧
     (update g d).ball_x = g.ball_x + 1) := by
  refine ⟨update_row_in_range g d, update_wall_only g d, ?_⟩
  intro hvx1 hvy1 hyge hxlt
  have h := update_wall_only g d
    (by rw [hvx1]; intro hc; omega)
    (by rw [hvx1, hvy1] at *; intro hc; omega)
    (by rw [hvy1]; right; exact hyge)
  obtain ⟨h1, h2, h3, h4⟩ := h
  rw [hvy1] at h1 h4
  rw [hvx1] at h2 h3
  refine ⟨h2, h1, ?_, h3⟩
  rw [h4, if_neg (by omega)]

/-- The reset-draw bundle used by the concrete Pong scenarios. -/
def d0 : ResetDraws := { vx := 1, vy := 1, wml := false, wmr := false, mdl := 1, mdr := 1 }

/-- C5 counterexample: a bounce tick that coincides with a right-paddle hit.
The candidate row 7 exceeds row 6 and the ball has velocity (+1, +1), but it
leaves the tick with velocity (-1, -1), not (+1, -1): the paddle collision
also reflects the horizontal velocity. -/
theorem update_scenario_cex :
    (let s : PGame := { ball_x := 49, ball_y := 6, ball_vx := 1, ball_vy := 1,
                        left_paddle_y := 2, right_paddle_y := 4,
                        left_score := 0, right_score := 0,
                        will_miss_left := false, will_miss_right := false,
                        miss_direction_left := 1, miss_direction_right := 1 }
     s.ball_vx = 1 ∧ s.ball_vy = 1 ∧ s.ball_y + s.ball_vy ≥ (GRID_ROWS : Int) ∧
     (update s d0).ball_vy = -1 ∧ (update s d0).ball_vx = -1 ∧
     ¬ (update s d0).ball_vx = 1) := by
  refine ⟨by decide, by decide, by decide, by decide, by decide, by decide⟩

/-- Witness for C5's amended theorem at a concrete bounce state away from
both paddles. -/
theorem update_wall_bounce_witness :
    (let s : PGame := { ball_x := 20, ball_y := 6, ball_vx := 1, ball_vy := 1,
                        left_paddle_y := 2, right_paddle_y := 2,
                        left_score := 0, right_score := 0,
                        will_miss_left := false, will_miss_right := false,
                        miss_direction_left := 1, miss_direction_right := 1 }
     (0 ≤ (update s d0).ball_y ∧ (update s d0).ball_y < (GRID_ROWS : Int)) ∧
     ((¬(s.ball_x + s.ball_vx ≤ (LEFT_PADDLE_COL : Int) + 1 ∧ s.ball_vx < 0)) →
      (¬(s.ball_x + s.ball_vx ≥ (RIGHT_PADDLE_COL : Int) - 1 ∧ s.ball_vx > 0)) →
      (s.ball_y + s.ball_vy < 0 ∨ s.ball_y + s.ball_vy ≥ (GRID_ROWS : Int)) →
      (update s d0).ball_vy = -s.ball_vy ∧ (update s d0).ball_vx = s.ball_vx ∧
      (update s d0).ball_x = s.ball_x + s.ball_vx ∧
      (update s d0).ball_y =
        (if s.ball_y + s.ball_vy < 0 then 0 else (GRID_ROWS : Int) - 1)) ∧
     (s.ball_vx = 1 → s.ball_vy = 1 → s.ball_y + 1 ≥ (GRID_ROWS : Int) →
      s.ball_x + 1 < (RIGHT_PADDLE_COL : Int) - 1 →
      (update s d0).ball_vx = 1 ∧ (update s d0).ball_vy = -1 ∧
      (update s d0).ball_y = (GRID_ROWS : Int) - 1 ∧
      (update s d0).ball_x = s.ball_x + 1)) :=
  update_wall_bounce _ d0

end Pong

namespace Welcome

def GRID_COLS : Nat := 42
def GRID_ROWS : Nat := 7

def CONTRIB_COLORS : List String :=
  ["#0e4429", "#006d32", "#26a641", "#39d353"]

def EMPTY_COLOR : String := "#161b22"

/-- The 7-row letter bitmaps of the `LETTERS` dictionary. -/
def LETTERS : Char → Option (List (List Nat))
  | 'W' => some [[1,0,0,0,1],
                 [1,0,0,0,1],
                 [1,0,0,0,1],
                 [1,0,1,0,1],
                 [1,0,1,0,1],
                 [1,1,0,1,1],
                 [1,0,0,0,1]]
  | 'E' => some [[1,1,1,1,1],
                 [1,0,0,0,0],
                 [1,0,0,0,0],
                 [1,1,1,1,0],
                 [1,0,0,0,0],
                 [1,0,0,0,0],
                 [1,1,1,1,1]]
  | 'L' => some [[1,0,0,0,0],
                 [1,0,0,0,0],
                 [1,0,0,0,0],
                 [1,0,0,0,0],
                 [1,0,0,0,0],
                 [1,0,0,0,0],
                 [1,1,1,1,1]]
  | 'C' => some [[0,1,1,1,1],
                 [1,0,0,0,0],
                 [1,0,0,0,0],
                 [1,0,0,0,0],
                 [1,0,0,0,0],
                 [1,0,0,0,0],
                 [0,1,1,1,1]]
  | 'O' => some [[0,1,1,1,0],
                 [1,0,0,0,1],
                 [1,0,0,0,1],
                 [1,0,0,0,1],
                 [1,0,0,0,1],
                 [1,0,0,0,1],
                 [0,1,1,1,0]]
  | 'M' => some [[1,0,0,0,1],
                 [1,1,0,1,1],
                 [1,0,1,0,1],
                 [1,0,1,0,1],
                 [1,0,0,0,1],
                 [1,0,0,0,1],
                 [1,0,0,0,1]]
  | _ => none

def setG (g : List (List Nat)) (r c : Nat) (v : Nat) : List (List Nat) :=
  g.set r ((g.getD r []).set c v)

/-- Stamp one 5-column letter bitmap into the grid at a starting column. -/
def placeLetter (g : List (List Nat)) (col : Nat) (letter : List (List Nat)) :
    List (List Nat) :=
  (List.range GRID_ROWS).foldl (fun acc r =>
    (List.range 5).foldl (fun acc2 c =>
      if col + c < GRID_COLS then setG acc2 r (col + c) ((letter.getD r []).getD c 0)
      else acc2) acc) g

/-- Embedding of `build_welcome_grid`: the word WELCOME centered on the 7 x 42 grid. -/
def build_welcome_grid : List (List Nat) :=
  let word := ['W', 'E', 'L', 'C', 'O', 'M', 'E']
  let grid := List.replicate GRID_ROWS (List.replicate GRID_COLS 0)
  let letter_width := 5
  let spacing := 1
  let total_width := word.length * letter_width + (word.length - 1) * spacing
  let start_col := (GRID_COLS - total_width) / 2
  (word.foldl (fun acc ch =>
      match LETTERS ch with
      | some letter => (placeLetter acc.1 acc.2 letter, acc.2 + letter_width + spacing)
      | none => acc) (grid, start_col)).1

/-- The filled cells of the target bitmap collected row-major and then
sorted by `(column, row)` — the left-to-right reveal order. -/
def filledCells (base : List (List Nat)) : List (Nat × Nat) :=
  let cells := (List.range GRID_ROWS).foldl (fun acc r =>
    (List.range GRID_COLS).foldl (fun acc2 c =>
      if (base.getD r []).getD c 0 ≠ 0 then acc2 ++ [(r, c)] else acc2) acc) []
  List.insertionSort (fun a b => a.2 < b.2 ∨ (a.2 = b.2 ∧ a.1 ≤ b.1)) cells

def reveal_frames : Nat := 30

/-- Embedding of `revealed.add(filled_cells[len(revealed)])`, guarded by the remaining
count, with the set modelled as a duplicate-free list. -/
def addOne (filled revealed : List (Nat × Nat)) : List (Nat × Nat) :=
  if revealed.length < filled.length then
    let x := filled.getD revealed.length (0, 0)
    if x ∈ revealed then revealed else revealed ++ [x]
  else revealed

/-- One phase-1 frame: revealed cells get a random level-2 or level-3 green
(`random.randint(2, 3)` modelled by the Boolean draw), others stay empty. -/
def revealFrame (revealed : List (Nat × Nat)) (lvl : Nat → Nat → Nat → Bool)
    (f : Nat) : List (List String) :=
  (List.range GRID_ROWS).map fun r =>
    (List.range GRID_COLS).map fun c =>
      if (r, c) ∈ revealed then
        CONTRIB_COLORS.getD (if lvl f r c then 3 else 2) ""
      else EMPTY_COLOR

/-- The revealed set after one more frame of the typing effect. -/
def rvNew (filled rv : List (Nat × Nat)) : List (Nat × Nat) :=
  let cells_per_frame := max 1 (filled.length / reveal_frames)
  let cells_to_reveal := min cells_per_frame (filled.length - rv.length)
  (List.range cells_to_reveal).foldl (fun acc _ => addOne filled acc) rv

/-- One iteration of the phase-1 loop of `generate_animation_frames`. -/
def phase1Step (filled : List (Nat × Nat)) (lvl : Nat → Nat → Nat → Bool)
    (acc : List (Nat × Nat) × List (List (List String))) (f : Nat) :
    List (Nat × Nat) × List (List (List String)) :=
  let revealed := rvNew filled acc.1
  (revealed, acc.2 ++ [revealFrame revealed lvl f])

/-- Phase 1 (reveal/typing effect) of `generate_animation_frames`. -/
def phase1Frames (base : List (List Nat)) (lvl : Nat → Nat → Nat → Bool) :
    List (List (List String)) :=
  ((List.range reveal_frames).foldl (phase1Step (filledCells base) lvl) ([], [])).2

/-- The pulsing wave level of phase 2 (`(col + frame_idx / 5.0) % 4` over
exact rationals; the float crossings of the integer thresholds happen only
at exact multiples of 5, where the float arithmetic is exact too). -/
def waveLevel (col frame_idx : Nat) : Nat :=
  let x : ℚ := (col : ℚ) + (frame_idx : ℚ) / 5
  let wave : ℚ := x - 4 * (⌊x / 4⌋ : ℤ)
  if wave < 1 then 3 else if wave < 2 then 2 else if wave < 3 then 1 else 2

/-- Phase 2 (pulse) of `generate_animation_frames`. -/
def phase2Frames (base : List (List Nat)) : List (List (List String)) :=
  (List.range 30).map fun frame_idx =>
    (List.range GRID_ROWS).map fun r =>
      (List.range GRID_COLS).map fun c =>
        if (base.getD r []).getD c 0 ≠ 0 then
          CONTRIB_COLORS.getD (waveLevel c frame_idx) ""
        else EMPTY_COLOR

/-- Embedding of `generate_animation_frames` (both phases), with the color-level draws of
phase 1 passed as an explicit stream. -/
def generate_animation_frames (base : List (List Nat))
    (lvl : Nat → Nat → Nat → Bool) : List (List (List String)) :=
  phase1Frames base lvl ++ phase2Frames base

/-- Number of colored (non-empty) cells of a frame. -/
def coloredCount (frame : List (List String)) : Nat :=
  (frame.map (fun row => (row.filter (fun c => decide (c ≠ EMPTY_COLOR))).length)).sum

/-- The constant level stream used for concrete evaluation. -/
def lvl0 : Nat → Nat → Nat → Bool := fun _ _ _ => true
/-- The WELCOME grid, as an explicit literal (proved equal to
`build_welcome_grid` below). -/
def WELCOME_GRID : List (List Nat) :=
  [[1,0,0,0,1,0,1,1,1,1,1,0,1,0,0,0,0,0,0,1,1,1,1,0,0,1,1,1,0,0,1,0,0,0,1,0,1,1,1,1,1,0],
   [1,0,0,0,1,0,1,0,0,0,0,0,1,0,0,0,0,0,1,0,0,0,0,0,1,0,0,0,1,0,1,1,0,1,1,0,1,0,0,0,0,0],
   [1,0,0,0,1,0,1,0,0,0,0,0,1,0,0,0,0,0,1,0,0,0,0,0,1,0,0,0,1,0,1,0,1,0,1,0,1,0,0,0,0,0],
   [1,0,1,0,1,0,1,1,1,1,0,0,1,0,0,0,0,0,1,0,0,0,0,0,1,0,0,0,1,0,1,0,1,0,1,0,1,1,1,1,0,0],
   [1,0,1,0,1,0,1,0,0,0,0,0,1,0,0,0,0,0,1,0,0,0,0,0,1,0,0,0,1,0,1,0,0,0,1,0,1,0,0,0,0,0],
   [1,1,0,1,1,0,1,0,0,0,0,0,1,0,0,0,0,0,1,0,0,0,0,0,1,0,0,0,1,0,1,0,0,0,1,0,1,0,0,0,0,0],
   [1,0,0,0,1,0,1,1,1,1,1,0,1,1,1,1,1,0,0,1,1,1,1,0,0,1,1,1,0,0,1,0,0,0,1,0,1,1,1,1,1,0]]

/-- The filled cells of the WELCOME bitmap in reveal order, as an explicit
literal (proved equal to `filledCells build_welcome_grid` below). -/
def FILLED_WELCOME : List (Nat × Nat) :=
  [(0, 0), (1, 0), (2, 0), (3, 0), (4, 0), (5, 0), (6, 0), (5, 1), (3, 2), (4, 2),
   (5, 3), (0, 4), (1, 4), (2, 4), (3, 4), (4, 4), (5, 4), (6, 4), (0, 6), (1, 6),
   (2, 6), (3, 6), (4, 6), (5, 6), (6, 6), (0, 7), (3, 7), (6, 7), (0, 8), (3, 8),
   (6, 8), (0, 9), (3, 9), (6, 9), (0, 10), (6, 10), (0, 12), (1, 12), (2, 12),
   (3, 12), (4, 12), (5, 12), (6, 12), (6, 13), (6, 14), (6, 15), (6, 16), (1, 18),
   (2, 18), (3, 18), (4, 18), (5, 18), (0, 19), (6, 19), (0, 20), (6, 20), (0, 21),
   (6, 21), (0, 22), (6, 22), (1, 24), (2, 24), (3, 24), (4, 24), (5, 24), (0, 25),
   (6, 25), (0, 26), (6, 26), (0, 27), (6, 27), (1, 28), (2, 28), (3, 28), (4, 28),
   (5, 28), (0, 30), (1, 30), (2, 30), (3, 30), (4, 30), (5, 30), (6, 30), (1, 31),
   (2, 32), (3, 32), (1, 33), (0, 34), (1, 34), (2, 34), (3, 34), (4, 34), (5, 34),
   (6, 34), (0, 36), (1, 36), (2, 36), (3, 36), (4, 36), (5, 36), (6, 36), (0, 37),
   (3, 37), (6, 37), (0, 38), (3, 38), (6, 38), (0, 39), (3, 39), (6, 39), (0, 40),
   (6, 40)]

set_option maxRecDepth 100000 in
theorem build_welcome_grid_eq : build_welcome_grid = WELCOME_GRID := by
  decide

set_option maxRecDepth 100000 in
theorem filledCells_welcome : filledCells WELCOME_GRID = FILLED_WELCOME := by
  decide

theorem filledCells_eq : filledCells build_welcome_grid = FILLED_WELCOME := by
  rw [build_welcome_grid_eq, filledCells_welcome]

theorem filledCells_length : (filledCells build_welcome_grid).length = 112 := by
  rw [filledCells_eq]
  rfl

theorem countP_or_disjoint {α : Type} (pA pB : α → Bool) (l : List α)
    (h : ∀ a ∈ l, ¬(pA a = true ∧ pB a = true)) :
    l.countP (fun a => pA a || pB a) = l.countP pA + l.countP pB := by
  induction l with
  | nil => rfl
  | cons a t ih =>
    have ht : ∀ x ∈ t, ¬(pA x = true ∧ pB x = true) :=
      fun x hx => h x (List.mem_cons_of_mem a hx)
    have ha := h a (List.mem_cons_self a t)
    rw [List.countP_cons, List.countP_cons, List.countP_cons, ih ht]
    cases hA : pA a <;> cases hB : pB a
    · simp
    · simp
      omega
    · simp
      omega
    · exact absurd ⟨hA, hB⟩ ha

theorem countP_pair_range (a n : Nat) :
    (List.range n).countP (fun c => decide (c = a)) = if a < n then 1 else 0 := by
  induction n with
  | zero => simp
  | succ n ih =>
    rw [List.range_succ, List.countP_append, ih]
    by_cases h : a < n
    · have h2 : ¬ n = a := by omega
      have h3 : a < n + 1 := by omega
      simp [List.countP_cons, h, h2, h3]
    · by_cases h2 : n = a
      · subst h2
        simp [List.countP_cons, h]
      · have h3 : ¬ a < n + 1 := by omega
        simp [List.countP_cons, h, h2, h3]

theorem sum_ite_range_zero (a n : Nat) (h : n ≤ a) :
    ((List.range n).map (fun r => if r = a then (1 : Nat) else 0)).sum = 0 := by
  induction n with
  | zero => rfl
  | succ n ih =>
    rw [List.range_succ, List.map_append, List.sum_append, ih (by omega)]
    have h2 : ¬ n = a := by omega
    simp [h2]

theorem sum_ite_range_one (a n : Nat) (h : a < n) :
    ((List.range n).map (fun r => if r = a then (1 : Nat) else 0)).sum = 1 := by
  induction n with
  | zero => omega
  | succ n ih =>
    rw [List.range_succ, List.map_append, List.sum_append]
    by_cases h2 : a < n
    · have h3 : ¬ n = a := by omega
      rw [ih h2]
      simp [h3]
    · have h3 : n = a := by omega
      rw [sum_ite_range_zero a n (by omega)]
      simp [h3]

theorem sum_map_add_nat {α : Type} (f g : α → Nat) (l : List α) :
    (l.map (fun x => f x + g x)).sum = (l.map f).sum + (l.map g).sum := by
  induction l with
  | nil => rfl
  | cons a t ih =>
    simp only [List.map_cons, List.sum_cons, ih]
    omega

/-- Number of grid positions that belong to the given revealed set. -/
def gridMemCount (rv : List (Nat × Nat)) : Nat :=
  ((List.range GRID_ROWS).map (fun r =>
    (List.range GRID_COLS).countP (fun c => decide ((r, c) ∈ rv)))).sum

theorem gridMemCount_eq_length (rv : List (Nat × Nat)) (hnd : rv.Nodup)
    (hb : ∀ p ∈ rv, p.1 < GRID_ROWS ∧ p.2 < GRID_COLS) :
    gridMemCount rv = rv.length := by
  induction rv with
  | nil =>
    unfold gridMemCount
    simp
  | cons p rv' ih =>
    obtain ⟨pr, pc⟩ := p
    have hnotmem : (pr, pc) ∉ rv' := (List.nodup_cons.mp hnd).1
    have hnd' : rv'.Nodup := (List.nodup_cons.mp hnd).2
    have hb' : ∀ q ∈ rv', q.1 < GRID_ROWS ∧ q.2 < GRID_COLS :=
      fun q hq => hb q (List.mem_cons_of_mem _ hq)
    obtain ⟨hpr, hpc⟩ := hb (pr, pc) (List.mem_cons_self _ _)
    have hsplit : ∀ r, (List.range GRID_COLS).countP
        (fun c => decide ((r, c) ∈ (pr, pc) :: rv')) =
        (List.range GRID_COLS).countP (fun c => decide ((r, c) = (pr, pc))) +
        (List.range GRID_COLS).countP (fun c => decide ((r, c) ∈ rv')) := by
      intro r
      rw [← countP_or_disjoint]
      · apply List.countP_congr
        intro c _
        simp [List.mem_cons]
      · rintro c _ ⟨h1, h2⟩
        rw [decide_eq_true_eq] at h1 h2
        rw [h1] at h2
        exact hnotmem h2
    unfold gridMemCount
    rw [List.map_congr_left (fun r _ => hsplit r), sum_map_add_nat]
    have hrec : ((List.range GRID_ROWS).map (fun r =>
        (List.range GRID_COLS).countP (fun c => decide ((r, c) ∈ rv')))).sum = rv'.length := by
      have := ih hnd' hb'
      unfold gridMemCount at this
      exact this
    rw [hrec]
    have hpt : ∀ r ∈ List.range GRID_ROWS,
        (List.range GRID_COLS).countP (fun c => decide ((r, c) = (pr, pc))) =
          if r = pr then (1 : Nat) else 0 := by
      intro r _
      by_cases hr : r = pr
      · subst hr
        rw [if_pos rfl]
        have hcnt := countP_pair_range pc GRID_COLS
        rw [if_pos hpc] at hcnt
        rw [← hcnt]
        apply List.countP_congr
        intro c _
        simp [Prod.mk.injEq]
      · rw [if_neg hr]
        rw [List.countP_eq_zero]
        intro c _
        simp [Prod.mk.injEq, hr]
    rw [List.map_congr_left hpt, sum_ite_range_one pr GRID_ROWS hpr]
    simp only [List.length_cons]
    omega

/-- For a duplicate-free revealed set of in-grid positions, the number of
colored cells of the reveal frame is exactly the size of the revealed set,
whatever the random color levels are. -/
theorem coloredCount_revealFrame_eq (rv : List (Nat × Nat))
    (lvl : Nat → Nat → Nat → Bool) (f : Nat) (hnd : rv.Nodup)
    (hb : ∀ p ∈ rv, p.1 < GRID_ROWS ∧ p.2 < GRID_COLS) :
    coloredCount (revealFrame rv lvl f) = rv.length := by
  rw [← gridMemCount_eq_length rv hnd hb]
  unfold coloredCount revealFrame gridMemCount
  rw [List.map_map]
  congr 1
  apply List.map_congr_left
  intro r _
  simp only [Function.comp]
  rw [List.filter_map, List.length_map, ← List.countP_eq_length_filter]
  apply List.countP_congr
  intro c _
  simp only [Function.comp, decide_eq_true_eq]
  by_cases hm : (r, c) ∈ rv
  · rw [if_pos hm]
    refine iff_of_true ?_ hm
    cases lvl f r c <;> decide
  · rw [if_neg hm]
    exact iff_of_false (fun hc => hc rfl) hm

theorem addOne_take (filled : List (Nat × Nat)) (hnd : filled.Nodup) (n : Nat)
    (hn : n < filled.length) :
    addOne filled (filled.take n) = filled.take (n + 1) := by
  have hlen : (filled.take n).length = n := by
    rw [List.length_take]
    omega
  have hx : filled.getD (filled.take n).length (0, 0) = filled[n] := by
    rw [hlen]
    exact List.getD_eq_getElem _ _ hn
  have hnotmem : filled[n] ∉ filled.take n := by
    intro hmem
    obtain ⟨m, hm, heq⟩ := List.mem_iff_getElem.mp hmem
    have hmlt : m < n := by
      rw [hlen] at hm
      exact hm
    rw [List.getElem_take] at heq
    have hinj := List.nodup_iff_injective_getElem.mp hnd
    have hfin : (⟨m, by omega⟩ : Fin filled.length) = ⟨n, hn⟩ := hinj heq
    have : m = n := congrArg Fin.val hfin
    omega
  simp only [addOne]
  rw [if_pos (by rw [hlen]; exact hn), hx, if_neg hnotmem, List.take_succ,
    List.getElem?_eq_getElem hn]
  rfl

theorem foldl_addOne_take (filled : List (Nat × Nat)) (hnd : filled.Nodup) :
    ∀ (k n : Nat), n + k ≤ filled.length →
      (List.range k).foldl (fun acc _ => addOne filled acc) (filled.take n) =
        filled.take (n + k) := by
  intro k
  induction k with
  | zero =>
    intro n _
    rfl
  | succ k ih =>
    intro n h
    rw [List.range_succ, List.foldl_append, ih n (by omega), List.foldl_cons,
      List.foldl_nil, addOne_take filled hnd (n + k) (by omega)]
    have hnk : n + k + 1 = n + (k + 1) := by omega
    rw [hnk]

theorem rvNew_take (filled : List (Nat × Nat)) (hnd : filled.Nodup) (n : Nat)
    (hn : n ≤ filled.length) :
    rvNew filled (filled.take n) =
      filled.take (n + min (max 1 (filled.length / reveal_frames))
        (filled.length - n)) := by
  have hlen : (filled.take n).length = n := by
    rw [List.length_take]
    omega
  simp only [rvNew, hlen]
  exact foldl_addOne_take filled hnd _ n (by omega)

/-- The revealed-count recurrence of the typing effect. -/
def revealLenAux (cpf K : Nat) : Nat → Nat
  | 0 => 0
  | f + 1 => revealLenAux cpf K f + min cpf (K - revealLenAux cpf K f)

theorem revealLenAux_le (cpf K : Nat) : ∀ m, revealLenAux cpf K m ≤ K
  | 0 => Nat.zero_le K
  | m + 1 => by
    have := revealLenAux_le cpf K m
    simp only [revealLenAux]
    omega

/-- The phase-1 fold reveals successive prefixes of the filled-cell list and
emits one frame per prefix. -/
theorem phase1_fold_char (base : List (List Nat)) (lvl : Nat → Nat → Nat → Bool)
    (hnd : (filledCells base).Nodup) :
    ∀ m,
      ((List.range m).foldl (phase1Step (filledCells base) lvl) ([], [])).1 =
        (filledCells base).take
          (revealLenAux (max 1 ((filledCells base).length / reveal_frames))
            (filledCells base).length m) ∧
      ((List.range m).foldl (phase1Step (filledCells base) lvl) ([], [])).2 =
        (List.range m).map (fun f =>
          revealFrame ((filledCells base).take
            (revealLenAux (max 1 ((filledCells base).length / reveal_frames))
              (filledCells base).length (f + 1))) lvl f) := by
  intro m
  induction m with
  | zero => exact ⟨rfl, rfl⟩
  | succ m ih =>
    obtain ⟨h1, h2⟩ := ih
    have hle := revealLenAux_le (max 1 ((filledCells base).length / reveal_frames))
      (filledCells base).length m
    have hstep1 : ((List.range (m + 1)).foldl (phase1Step (filledCells base) lvl)
        ([], [])).1 =
        rvNew (filledCells base)
          (((List.range m).foldl (phase1Step (filledCells base) lvl) ([], [])).1) := by
      rw [List.range_succ, List.foldl_append, List.foldl_cons, List.foldl_nil]
      rfl
    have hstep2 : ((List.range (m + 1)).foldl (phase1Step (filledCells base) lvl)
        ([], [])).2 =
        ((List.range m).foldl (phase1Step (filledCells base) lvl) ([], [])).2 ++
          [revealFrame (rvNew (filledCells base)
            (((List.range m).foldl (phase1Step (filledCells base) lvl) ([], [])).1))
            lvl m] := by
      rw [List.range_succ, List.foldl_append, List.foldl_cons, List.foldl_nil]
      rfl
    constructor
    · rw [hstep1, h1, rvNew_take (filledCells base) hnd _ hle]
      rfl
    · rw [hstep2, h2, h1, rvNew_take (filledCells base) hnd _ hle,
        List.range_succ, List.map_append]
      rfl

/-- Phase 1 consists of one reveal frame per prefix of the filled cells. -/
theorem phase1Frames_char (base : List (List Nat)) (lvl : Nat → Nat → Nat → Bool)
    (hnd : (filledCells base).Nodup) :
    phase1Frames base lvl = (List.range reveal_frames).map (fun f =>
      revealFrame ((filledCells base).take
        (revealLenAux (max 1 ((filledCells base).length / reveal_frames))
          (filledCells base).length (f + 1))) lvl f) :=
  (phase1_fold_char base lvl hnd reveal_frames).2

/-- The concrete per-frame colored counts of the reveal phase for any level
stream: 3 more cells per frame, ending at 90 of the 112 target cells. -/
theorem phase1_counts (lvl : Nat → Nat → Nat → Bool) :
    (phase1Frames build_welcome_grid lvl).map coloredCount =
      [3, 6, 9, 12, 15, 18, 21, 24, 27, 30, 33, 36, 39, 42, 45,
       48, 51, 54, 57, 60, 63, 66, 69, 72, 75, 78, 81, 84, 87, 90] := by
  have hnd : (filledCells build_welcome_grid).Nodup := by
    rw [filledCells_eq]
    decide
  have hb : ∀ p ∈ filledCells build_welcome_grid,
      p.1 < GRID_ROWS ∧ p.2 < GRID_COLS := by
    rw [filledCells_eq]
    decide
  rw [phase1Frames_char build_welcome_grid lvl hnd, List.map_map]
  have hmap : ∀ f ∈ List.range reveal_frames,
      (coloredCount ∘ fun f => revealFrame ((filledCells build_welcome_grid).take
        (revealLenAux (max 1 ((filledCells build_welcome_grid).length / reveal_frames))
          (filledCells build_welcome_grid).length (f + 1))) lvl f) f =
      min (revealLenAux 3 112 (f + 1)) 112 := by
    intro f _
    simp only [Function.comp]
    have hsub := List.take_sublist
      (revealLenAux (max 1 ((filledCells build_welcome_grid).length / reveal_frames))
        (filledCells build_welcome_grid).length (f + 1)) (filledCells build_welcome_grid)
    rw [coloredCount_revealFrame_eq _ lvl f (hsub.nodup hnd)
      (fun p hp => hb p (hsub.subset hp))]
    rw [List.length_take, filledCells_length]
    have h3 : (1 : Nat) ⊔ (112 / reveal_frames) = 3 := by decide
    rw [h3]
  rw [List.map_congr_left hmap]
  decide

/-- Executable check that a list of counts is non-decreasing. -/
def chainLe : List Nat → Bool
  | [] => true
  | [_] => true
  | a :: b :: t => decide (a ≤ b) && chainLe (b :: t)

/-- C7 (amended): for the WELCOME bitmap (K = 112 filled cells) and R = 30
reveal frames, the frame at index f shows exactly
min(K, (f + 1) * max(1, K / R)) = 3 * (f + 1) colored cells, monotonically
non-decreasing; the phase ends with only 90 of the 112 cells revealed (the
remainder first appears in the pulse phase). -/
theorem reveal_counts_amended (lvl : Nat → Nat → Nat → Bool) :
    (phase1Frames build_welcome_grid lvl).map coloredCount =
      (List.range reveal_frames).map (fun f =>
        min (filledCells build_welcome_grid).length
          ((f + 1) * max 1 ((filledCells build_welcome_grid).length / reveal_frames))) ∧
    chainLe ((phase1Frames build_welcome_grid lvl).map coloredCount) = true ∧
    (filledCells build_welcome_grid).length = 112 ∧
    ((phase1Frames build_welcome_grid lvl).map coloredCount).getLast? = some 90 := by
  refine ⟨?_, ?_, filledCells_length, ?_⟩
  · rw [phase1_counts lvl]
    simp only [filledCells_length]
    decide
  · rw [phase1_counts lvl]
    decide
  · rw [phase1_counts lvl]
    rfl

/-- C7 counterexample: at frame index 1 the reveal phase shows 6 colored
cells, not floor((1+1)/30 * 112) = 7 as the claim states. -/
theorem reveal_count_cex :
    (filledCells build_welcome_grid).length = 112 ∧
    coloredCount ((phase1Frames build_welcome_grid lvl0).getD 1 []) = 6 ∧
    ¬ coloredCount ((phase1Frames build_welcome_grid lvl0).getD 1 []) =
        ((1 + 1) * (filledCells build_welcome_grid).length) / reveal_frames := by
  have h6 : coloredCount ((phase1Frames build_welcome_grid lvl0).getD 1 []) = 6 := by
    have h1 : ((phase1Frames build_welcome_grid lvl0).map coloredCount).getD 1
        (coloredCount []) =
        coloredCount ((phase1Frames build_welcome_grid lvl0).getD 1 []) :=
      List.getD_map _ _ _
    rw [← h1, phase1_counts lvl0]
    rfl
  refine ⟨filledCells_length, h6, ?_⟩
  rw [h6, filledCells_length]
  decide

end Welcome

namespace Render

/-- The markup emitted for one grid cell: a plain rectangle or a rectangle
with a discrete, indefinitely repeating fill animation over the per-frame
color sequence of the given total cycle duration. -/
inductive CellMarkup
  | static (fill : String)
  | animated (values : List String) (dur : ℚ)
deriving DecidableEq

/-- The per-cell branch shared by all three renderers:
`len(set(colors)) > 1` emits the animated rectangle over exactly the
per-frame colors, otherwise a static rectangle of the single color. -/
def emitCell (colors : List String) (total_duration : ℚ) : CellMarkup :=
  if colors.dedup.length > 1 then CellMarkup.animated colors total_duration
  else CellMarkup.static (colors.getD 0 "")

/-- Embedding of `PIECE_COLORS` of the Tetris generator. -/
def PIECE_COLORS : Tetris.PieceType → String
  | Tetris.PieceType.I => "#00ffff"
  | Tetris.PieceType.O => "#ffff00"
  | Tetris.PieceType.T => "#ff00ff"
  | Tetris.PieceType.S => "#00ff00"
  | Tetris.PieceType.Z => "#ff0000"
  | Tetris.PieceType.J => "#0080ff"
  | Tetris.PieceType.L => "#ff8000"

def TETRIS_EMPTY_COLOR : String := "#1a1a2e"

def tetrisPieceColor : Option Tetris.PieceType → String
  | some t => PIECE_COLORS t
  | none => ""

/-- The color of one cell in one captured Tetris frame: the settled board
cell's piece color (or the empty color), overridden by the active piece's
color where the piece covers the cell. -/
def tetrisCellColor (fr : Tetris.Frame) (row col : Nat) : String :=
  let base := match Tetris.cellAt fr.board row col with
    | some t => PIECE_COLORS t
    | none => TETRIS_EMPTY_COLOR
  match fr.piece with
  | none => base
  | some p =>
    if p.any (fun rc =>
        decide (fr.piece_row + rc.1 = (row : Int)) &&
        decide (fr.piece_col + rc.2 = (col : Int))) then
      tetrisPieceColor fr.piece_type
    else base

/-- The per-cell emission of `create_arcade_svg` in the Tetris generator. -/
def renderCellTetris (frames : List Tetris.Frame) (frame_duration : ℚ)
    (row col : Nat) : CellMarkup :=
  let total_duration := (frames.length : ℚ) * frame_duration
  let colors := frames.map fun fr => tetrisCellColor fr row col
  if colors.dedup.length > 1 then CellMarkup.animated colors total_duration
  else CellMarkup.static (colors.getD 0 "")

/-- The per-cell emission of `create_contribution_svg` in the Pong
generator (`frame_duration = 1.0 / fps`). -/
def renderCellPong (frames : List (List (List String))) (fps : ℚ)
    (row col : Nat) : CellMarkup :=
  let frame_duration := 1 / fps
  let total_duration := (frames.length : ℚ) * frame_duration
  let colors := frames.map fun f => (f.getD row []).getD col ""
  if colors.dedup.length > 1 then CellMarkup.animated colors total_duration
  else CellMarkup.static (colors.getD 0 "")

/-- The per-cell emission of `create_arcade_svg` in the WELCOME generator. -/
def renderCellWelcome (frames : List (List (List String))) (frame_duration : ℚ)
    (row col : Nat) : CellMarkup :=
  let total_duration := (frames.length : ℚ) * frame_duration
  let colors := frames.map fun f => (f.getD row []).getD col ""
  if colors.dedup.length > 1 then CellMarkup.animated colors total_duration
  else CellMarkup.static (colors.getD 0 "")

theorem dedup_of_constant {α : Type} [DecidableEq α] (a : α) (l : List α) :
    (∀ x ∈ l, x = a) → l ≠ [] → l.dedup = [a] := by
  induction l with
  | nil =>
    intro _ hne
    exact absurd rfl hne
  | cons b t ih =>
    intro h _
    have hb : b = a := h b (List.mem_cons_self b t)
    cases t with
    | nil =>
      rw [hb]
      simp
    | cons c t' =>
      have hc : c = a := h c (List.mem_cons_of_mem b (List.mem_cons_self c t'))
      have hmem : b ∈ c :: t' := by
        rw [hb, ← hc]
        exact List.mem_cons_self c t'
      rw [List.dedup_cons_of_mem hmem]
      exact ih (fun x hx => h x (List.mem_cons_of_mem b hx)) (by simp)

theorem one_lt_dedup_of_two {α : Type} [DecidableEq α] (l : List α) (x y : α)
    (hx : x ∈ l) (hy : y ∈ l) (hxy : ¬ x = y) : 1 < l.dedup.length := by
  have hx' : x ∈ l.dedup := List.mem_dedup.mpr hx
  have hy' : y ∈ l.dedup := List.mem_dedup.mpr hy
  match hd : l.dedup with
  | [] =>
    rw [hd] at hx'
    exact absurd hx' (List.not_mem_nil x)
  | [z] =>
    rw [hd] at hx' hy'
    have h1 : x = z := by simpa using hx'
    have h2 : y = z := by simpa using hy'
    exact absurd (h1.trans h2.symm) hxy
  | z :: w :: t => simp

/-- C9: the renderers emit, per grid cell, a static rectangle exactly when
the cell's color is constant across all frames, and otherwise an animated
rectangle stepping through exactly the per-frame color sequence with total
cycle duration equal to frame count x frame duration; all three generators'
per-cell emissions are instances of this shared `emitCell` logic. -/
theorem emitCell_spec (colors : List String) (dur : ℚ) (h : colors ≠ []) :
    ((∀ x ∈ colors, x = colors.getD 0 "") →
      emitCell colors dur = CellMarkup.static (colors.getD 0 "")) ∧
    ((∃ x ∈ colors, ¬ x = colors.getD 0 "") →
      emitCell colors dur = CellMarkup.animated colors dur) ∧
    (∀ (frames : List (List (List String))) (fps : ℚ) (row col : Nat),
      renderCellPong frames fps row col =
        emitCell (frames.map fun f => (f.getD row []).getD col "")
          ((frames.length : ℚ) * (1 / fps))) ∧
    (∀ (frames : List (List (List String))) (fd : ℚ) (row col : Nat),
      renderCellWelcome frames fd row col =
        emitCell (frames.map fun f => (f.getD row []).getD col "")
          ((frames.length : ℚ) * fd)) ∧
    (∀ (frames : List Tetris.Frame) (fd : ℚ) (row col : Nat),
      renderCellTetris frames fd row col =
        emitCell (frames.map fun fr => tetrisCellColor fr row col)
          ((frames.length : ℚ) * fd)) := by
  refine ⟨?_, ?_, fun _ _ _ _ => rfl, fun _ _ _ _ => rfl, fun _ _ _ _ => rfl⟩
  · intro hconst
    rw [emitCell, if_neg ?_]
    rw [dedup_of_constant (colors.getD 0 "") colors hconst h]
    simp
  · intro hvar
    obtain ⟨x, hx, hne⟩ := hvar
    have hhead : colors.getD 0 "" ∈ colors := by
      cases colors with
      | nil => exact absurd rfl h
      | cons a t => exact List.mem_cons_self a t
    rw [emitCell, if_pos (one_lt_dedup_of_two colors x (colors.getD 0 "") hx hhead hne)]

/-- Witness for C9 at concrete varying and constant color lists. -/
theorem emitCell_spec_witness :
    (¬ (["#161b22", "#39d353"] : List String) = []) ∧
    ((∀ x ∈ (["#161b22", "#39d353"] : List String),
        x = (["#161b22", "#39d353"] : List String).getD 0 "") →
      emitCell ["#161b22", "#39d353"] 1 =
        CellMarkup.static ((["#161b22", "#39d353"] : List String).getD 0 "")) ∧
    ((∃ x ∈ (["#161b22", "#39d353"] : List String),
        ¬ x = (["#161b22", "#39d353"] : List String).getD 0 "") →
      emitCell ["#161b22", "#39d353"] 1 =
        CellMarkup.animated ["#161b22", "#39d353"] 1) ∧
    (∀ (frames : List (List (List String))) (fps : ℚ) (row col : Nat),
      renderCellPong frames fps row col =
        emitCell (frames.map fun f => (f.getD row []).getD col "")
          ((frames.length : ℚ) * (1 / fps))) ∧
    (∀ (frames : List (List (List String))) (fd : ℚ) (row col : Nat),
      renderCellWelcome frames fd row col =
        emitCell (frames.map fun f => (f.getD row []).getD col "")
          ((frames.length : ℚ) * fd)) ∧
    (∀ (frames : List Tetris.Frame) (fd : ℚ) (row col : Nat),
      renderCellTetris frames fd row col =
        emitCell (frames.map fun fr => tetrisCellColor fr row col)
          ((frames.length : ℚ) * fd)) :=
  ⟨by decide, (emitCell_spec ["#161b22", "#39d353"] 1 (by decide)).1,
   (emitCell_spec ["#161b22", "#39d353"] 1 (by decide)).2.1,
   (emitCell_spec ["#161b22", "#39d353"] 1 (by decide)).2.2.1,
   (emitCell_spec ["#161b22", "#39d353"] 1 (by decide)).2.2.2.1,
   (emitCell_spec ["#161b22", "#39d353"] 1 (by decide)).2.2.2.2⟩

end Render

/-- C8: each generator's whole simulation is a pure function of its explicit
random streams (every `random.*` call of the sources is surfaced as a stream
argument), so two runs over equal streams — e.g. produced by the same seeded
generator — yield identical frame sequences. -/
theorem determinism_fixed_streams
    (psA psB : Nat → Tetris.PieceType) (actsA actsB : Nat → ℚ)
    (d0A d0B : Pong.ResetDraws) (dsA dsB : Nat → Pong.ResetDraws)
    (lvlA lvlB : Nat → Nat → Nat → Bool)
    (hps : psA = psB) (hacts : actsA = actsB) (hd0 : d0A = d0B) (hds : dsA = dsB)
    (hlvl : lvlA = lvlB) :
    Tetris.simulate_game Tetris.initGame 35 psA actsA =
      Tetris.simulate_game Tetris.initGame 35 psB actsB ∧
    Pong.simulate_pong_game 480 2 d0A dsA = Pong.simulate_pong_game 480 2 d0B dsB ∧
    Welcome.generate_animation_frames Welcome.build_welcome_grid lvlA =
      Welcome.generate_animation_frames Welcome.build_welcome_grid lvlB := by
  subst hps
  subst hacts
  subst hd0
  subst hds
  subst hlvl
  exact ⟨rfl, rfl, rfl⟩

/-- Witness for C8 at concrete equal streams. -/
theorem determinism_fixed_streams_witness :
    Tetris.simulate_game Tetris.initGame 35 (fun _ => Tetris.PieceType.O) (fun _ => (1 : ℚ)) =
      Tetris.simulate_game Tetris.initGame 35 (fun _ => Tetris.PieceType.O) (fun _ => (1 : ℚ)) ∧
    Pong.simulate_pong_game 480 2 Pong.d0 (fun _ => Pong.d0) =
      Pong.simulate_pong_game 480 2 Pong.d0 (fun _ => Pong.d0) ∧
    Welcome.generate_animation_frames Welcome.build_welcome_grid Welcome.lvl0 =
      Welcome.generate_animation_frames Welcome.build_welcome_grid Welcome.lvl0 :=
  determinism_fixed_streams _ _ _ _ _ _ _ _ _ _ rfl rfl rfl rfl rfl
